import Mathlib

/-!
# local-k8s-cluster-go: cluster status, deployment readiness, pod wait, manifest deploy

A shallow embedding of `internal/k8s/client.go` and `internal/apps/manager.go`.

* Go slices are lists, Go `int` counters are `Nat` (they only count slice elements),
  `int32` replica counts are `Int` (only compared, never added).
* A Go `error` is `Option String` (`none` is `nil`); a `(value, error)` result that is
  read only when the error is `nil` is `Except String value`.
* The Kubernetes API types are records holding the fields the program reads.
* The orchestrator and the file system are inputs: what a `List` call returned, what
  `filepath.Walk` visited, what the YAML decoder produced for a file.
-/

set_option autoImplicit false

namespace K8s

/-! ## Kubernetes API constants (`k8s.io/api/core/v1`) -/

/-- The Go name `v1.NodeReady`. -/
def NodeReady : String := "Ready"
/-- The Go name `v1.ConditionTrue`. -/
def ConditionTrue : String := "True"
/-- The Go name `v1.ConditionFalse`. -/
def ConditionFalse : String := "False"
/-- The Go name `v1.PodRunning`. -/
def PodRunning : String := "Running"
/-- The Go name `v1.PodPending`. -/
def PodPending : String := "Pending"
/-- The Go name `v1.PodFailed`. -/
def PodFailed : String := "Failed"
/-- The Go name `v1.PodSucceeded`. -/
def PodSucceeded : String := "Succeeded"
/-- The Go name `v1.PodUnknown`. -/
def PodUnknown : String := "Unknown"

/-! ## Kubernetes API records, restricted to the fields that are read -/

/-- The Go name `v1.NodeCondition`: `Type` and `Status`. -/
structure NodeCondition where
  Typ : String
  Status : String
  deriving DecidableEq, Repr

/-- The Go name `v1.Node`: `Name` and `Status.Conditions`. -/
structure Node where
  Name : String
  Conditions : List NodeCondition
  deriving DecidableEq, Repr

/-- The Go name `v1.ContainerStatus`: the `Ready` flag. -/
structure ContainerStatus where
  Ready : Bool
  deriving DecidableEq, Repr

/-- The Go name `v1.Pod`: `Name`, `Namespace`, `Status.Phase`, `Status.ContainerStatuses`. -/
structure Pod where
  Name : String
  Namespace : String
  Phase : String
  ContainerStatuses : List ContainerStatus
  deriving DecidableEq, Repr

/-- The Go name `v1.Namespace`: only the number of items is used. -/
structure NamespaceItem where
  Name : String
  deriving DecidableEq, Repr

/-! ## `client.go` -/

/-- The `PodInfo` record of `client.go`. -/
structure PodInfo where
  Name : String
  Namespace : String
  Phase : String
  deriving DecidableEq, Repr

/-- The `ClusterStatus` record of `client.go`. -/
structure ClusterStatus where
  Status : String
  ReadyNodes : Nat
  TotalNodes : Nat
  RunningPods : Nat
  TotalPods : Nat
  Namespaces : Nat
  UnhealthyPods : List PodInfo
  deriving DecidableEq, Repr

/-- The zero value `&ClusterStatus{}`. -/
def ClusterStatus.zero : ClusterStatus :=
  { Status := "", ReadyNodes := 0, TotalNodes := 0, RunningPods := 0,
    TotalPods := 0, Namespaces := 0, UnhealthyPods := [] }

/-- Lines 96-101: the loop over one node's conditions; the first condition of type Ready
with status True increments `ReadyNodes` and breaks. -/
def conditionLoop (status : ClusterStatus) : List NodeCondition → ClusterStatus
  | [] => status
  | condition :: rest =>
    if condition.Typ = NodeReady ∧ condition.Status = ConditionTrue then
      { status with ReadyNodes := status.ReadyNodes + 1 }
    else conditionLoop status rest

/-- Lines 95-102: the loop over `nodes.Items`. -/
def nodeLoop (status : ClusterStatus) : List Node → ClusterStatus
  | [] => status
  | node :: rest => nodeLoop (conditionLoop status node.Conditions) rest

/-- Lines 111-121: the loop over `pods.Items`. -/
def podLoop (status : ClusterStatus) : List Pod → ClusterStatus
  | [] => status
  | pod :: rest =>
    if pod.Phase = PodRunning then
      podLoop { status with RunningPods := status.RunningPods + 1 } rest
    else if pod.Phase = PodFailed ∨ pod.Phase = PodPending then
      podLoop { status with UnhealthyPods := status.UnhealthyPods ++
        [{ Name := pod.Name, Namespace := pod.Namespace, Phase := pod.Phase }] } rest
    else podLoop status rest

/-- Lines 130-137: the overall verdict. -/
def determineStatus (status : ClusterStatus) : ClusterStatus :=
  if status.ReadyNodes = status.TotalNodes ∧ status.UnhealthyPods.length = 0 then
    { status with Status := "Healthy" }
  else if status.ReadyNodes > 0 then
    { status with Status := "Degraded" }
  else
    { status with Status := "Unhealthy" }

/-- The method `Client.GetClusterStatus`. The three arguments are what the three `List` calls of the
clientset return; a later call is looked at only when the earlier ones succeeded. -/
def GetClusterStatus (nodes : Except String (List Node)) (pods : Except String (List Pod))
    (namespaces : Except String (List NamespaceItem)) : Except String ClusterStatus :=
  let status := ClusterStatus.zero
  match nodes with
  | .error err => .error ("failed to list nodes: " ++ err)
  | .ok nodeItems =>
    let status := { status with TotalNodes := nodeItems.length }
    let status := nodeLoop status nodeItems
    match pods with
    | .error err => .error ("failed to list pods: " ++ err)
    | .ok podItems =>
      let status := { status with TotalPods := podItems.length }
      let status := podLoop status podItems
      match namespaces with
      | .error err => .error ("failed to list namespaces: " ++ err)
      | .ok namespaceItems =>
        let status := { status with Namespaces := namespaceItems.length }
        .ok (determineStatus status)

/-! ### Specification-side predicates for the cluster status -/

/-- A node carries at least one condition of type Ready with status True. -/
def nodeIsReady (node : Node) : Bool :=
  node.Conditions.any (fun c => decide (c.Typ = NodeReady ∧ c.Status = ConditionTrue))

/-- A pod is unhealthy: its phase is Failed or Pending. -/
def podIsUnhealthy (pod : Pod) : Bool :=
  decide (pod.Phase = PodFailed ∨ pod.Phase = PodPending)

/-- The report entry of a pod. -/
def podInfoOf (pod : Pod) : PodInfo :=
  { Name := pod.Name, Namespace := pod.Namespace, Phase := pod.Phase }

/-! ### `WaitForPod` -/

/-- The Go name `time.Second`, in nanoseconds (the unit of `time.Duration`). -/
def Second : Nat := 1000000000

/-- What one `Pods(namespace).List` call does: how long it takes and what it returns. -/
structure PodQuery where
  took : Nat
  result : Except String (List Pod)

/-- How a call of `WaitForPod` ends: the instant of the return, the number of pod queries
issued, and the returned `error`. -/
structure WaitReturn where
  instant : Nat
  polls : Nat
  err : Option String
  deriving DecidableEq, Repr

/-- Lines 210-216: `ready := true`, then the loop over the container statuses, which sets
`ready = false` and breaks at the first status that is not ready. -/
def containerLoop (ready : Bool) : List ContainerStatus → Bool
  | [] => ready
  | status :: rest => if !status.Ready then false else containerLoop ready rest

/-- Lines 206-221: whether this poll returns `nil`. Only `pods.Items[0]` is read. -/
def pollSucceeds (items : List Pod) : Bool :=
  match items with
  | [] => false
  | pod :: _ =>
    if pod.Phase = PodRunning then
      let ready := containerLoop true pod.ContainerStatuses
      if ready then true else false
    else false

/-- Lines 194-225: the `for` loop. `list now` is the pod query issued at instant `now`
(namespace and label selector already supplied); `doneAt` is the instant at which
`ctx.Done()` is closed, so the `select` takes its first case iff `doneAt ≤ now`, and its
`default` case otherwise. `time.Sleep` blocks for the whole two seconds. -/
def WaitForPodLoop (list : Nat → PodQuery) (doneAt : Nat) (labelSelector : String)
    (polls now : Nat) : WaitReturn :=
  if doneAt ≤ now then
    { instant := now, polls := polls,
      err := some ("timeout waiting for pod with selector " ++ labelSelector) }
  else
    match (list now).result with
    | .error err =>
      { instant := now + (list now).took, polls := polls + 1,
        err := some ("failed to list pods: " ++ err) }
    | .ok items =>
      if pollSucceeds items then
        { instant := now + (list now).took, polls := polls + 1, err := none }
      else
        WaitForPodLoop list doneAt labelSelector (polls + 1)
          (now + (list now).took + 2 * Second)
termination_by doneAt - now
decreasing_by
  simp only [Second]
  omega

/-- The instant at which the context made by `context.WithTimeout(ctx, timeout)` at instant
`start` is done: the deadline `start + timeout`, or the instant the caller's context is
cancelled (`none`: never) when that is earlier. -/
def ctxDoneAt (parentDone : Option Nat) (timeout start : Nat) : Nat :=
  match parentDone with
  | none => start + timeout
  | some cancelled => min cancelled (start + timeout)

/-- The method `Client.WaitForPod`, called at instant `start`. `list namespace labelSelector now` is
the pod query of the clientset at instant `now`. -/
def WaitForPod (list : String → String → Nat → PodQuery) (parentDone : Option Nat)
    («namespace» labelSelector : String) (timeout start : Nat) : WaitReturn :=
  WaitForPodLoop (list «namespace» labelSelector) (ctxDoneAt parentDone timeout start)
    labelSelector 0 start

/-- A pod is ready for `WaitForPod`: phase Running and every container status ready. -/
def podFullyReady (pod : Pod) : Prop :=
  pod.Phase = PodRunning ∧ ∀ status ∈ pod.ContainerStatuses, status.Ready = true

instance (pod : Pod) : Decidable (podFullyReady pod) := by
  unfold podFullyReady; exact inferInstance

/-- The instants at which the loop of `WaitForPod` reaches the top of an iteration while it
keeps polling: the start, and then the previous top plus the duration of the pod query
issued there plus the whole two-second sleep. -/
def checkInstant (list : Nat → PodQuery) (start : Nat) : Nat → Nat
  | 0 => start
  | k + 1 =>
    checkInstant list start k + (list (checkInstant list start k)).took + 2 * Second

/-- A pod query succeeds and its first pod, if any, is not ready. -/
def findsNoReadyPod (query : PodQuery) : Prop :=
  ∃ items, query.result = .ok items ∧ ¬ ∃ pod rest, items = pod :: rest ∧ podFullyReady pod

end K8s

/-! ## `k8s.io/api/apps/v1` -/

namespace Appsv1

/-- The Go name `appsv1.DeploymentProgressing`. -/
def DeploymentProgressing : String := "Progressing"

/-- The Go name `appsv1.DeploymentCondition`: `Type`, `Status`, `Reason`. -/
structure DeploymentCondition where
  Typ : String
  Status : String
  Reason : String
  deriving DecidableEq, Repr

/-- The Go name `appsv1.DeploymentSpec`: `Replicas` is a `*int32`, `none` is the nil pointer. -/
structure DeploymentSpec where
  Replicas : Option Int
  deriving DecidableEq, Repr

/-- The Go name `appsv1.DeploymentStatus`: `ReadyReplicas` and `Conditions`. -/
structure DeploymentStatus where
  ReadyReplicas : Int
  Conditions : List DeploymentCondition
  deriving DecidableEq, Repr

/-- The Go name `appsv1.Deployment`. -/
structure Deployment where
  Name : String
  Namespace : String
  Spec : DeploymentSpec
  Status : DeploymentStatus
  deriving DecidableEq, Repr

end Appsv1

/-! ## `manager.go` -/

namespace Apps

open K8s (ConditionFalse)
open Appsv1 (DeploymentProgressing)

/-- Lines 213-222: the loop over the deployment's conditions; `some "Failed"` is the early
return, `none` means the loop ran to its end. -/
def progressingLoop : List Appsv1.DeploymentCondition → Option String
  | [] => none
  | condition :: rest =>
    if condition.Typ = DeploymentProgressing then
      if condition.Status = ConditionFalse then some "Failed"
      else if condition.Reason = "ProgressDeadlineExceeded" then some "Failed"
      else progressingLoop rest
    else progressingLoop rest

/-- The method `Manager.getDeploymentStatus`. `none` is the nil-pointer panic of `*deployment.Spec.Replicas`. -/
def getDeploymentStatus (deployment : Appsv1.Deployment) : Option String :=
  match deployment.Spec.Replicas with
  | none => none
  | some replicas =>
    if deployment.Status.ReadyReplicas = replicas then some "Ready"
    else
      match progressingLoop deployment.Status.Conditions with
      | some verdict => some verdict
      | none =>
        if deployment.Status.ReadyReplicas > 0 then some "Degraded"
        else some "Pending"

/-- A condition that makes a deployment Failed: type Progressing with status False or with
reason ProgressDeadlineExceeded. -/
def disqualifies (condition : Appsv1.DeploymentCondition) : Prop :=
  condition.Typ = DeploymentProgressing ∧
    (condition.Status = ConditionFalse ∨ condition.Reason = "ProgressDeadlineExceeded")

instance (condition : Appsv1.DeploymentCondition) : Decidable (disqualifies condition) := by
  unfold disqualifies; exact inferInstance

/-! ### Manifests -/

/-- The library type `unstructured.Unstructured` with a non-nil `Object`: the three fields the program reads
through `GetKind`, `GetName`, `GetNamespace`, and the rest of the object. -/
structure Unstructured where
  Kind : String
  Name : String
  Namespace : String
  Fields : List (String × String)
  deriving DecidableEq, Repr

/-- The accessor `GetKind`. -/
def Unstructured.GetKind (u : Unstructured) : String := u.Kind
/-- The accessor `GetName`. -/
def Unstructured.GetName (u : Unstructured) : String := u.Name
/-- The accessor `GetNamespace`. -/
def Unstructured.GetNamespace (u : Unstructured) : String := u.Namespace
/-- The accessor `SetNamespace`. -/
def Unstructured.SetNamespace (u : Unstructured) (ns : String) : Unstructured :=
  { u with Namespace := ns }

/-- What one `decoder.Decode(&manifest)` call does before the stream is exhausted: it fills
a manifest with an object, or leaves `manifest.Object` nil, or fails with an error other
than `io.EOF`. -/
inductive Decoded where
  | document (manifest : Unstructured)
  | nilObject
  | failure (err : String)
  deriving DecidableEq, Repr

/-- One invocation of the walk function by `filepath.Walk`: the path, the error `Walk`
passes in, and what `os.ReadFile(path)` gives, the content being viewed as the sequence of
decode results it yields before `io.EOF`. -/
structure WalkEntry where
  path : String
  walkErr : Option String
  readFile : Except String (List Decoded)

/-- The scan of `filepath.Ext`, from the last character backwards: `acc` is the suffix
already passed. -/
def extLoop : List Char → List Char → List Char
  | [], _ => []
  | c :: rest, acc =>
    if c = '/' then []
    else if c = '.' then '.' :: acc
    else extLoop rest (c :: acc)

/-- The library function `filepath.Ext`: the suffix starting at the last dot of the last path element. -/
def Ext (path : String) : String := String.mk (extLoop path.data.reverse [])

/-- Lines 187-199: the decode loop of one file; the end of the list is `io.EOF`. -/
def decodeLoop (path : String) (manifests : List Unstructured) :
    List Decoded → List Unstructured × Option String
  | [] => (manifests, none)
  | .failure err :: _ => (manifests, some ("failed to decode YAML in " ++ path ++ ": " ++ err))
  | .nilObject :: rest => decodeLoop path manifests rest
  | .document manifest :: rest => decodeLoop path (manifests ++ [manifest]) rest

/-- Lines 170-202: the walk function; it returns the captured `manifests` slice and its
`error`. -/
def walkFn (manifests : List Unstructured) (entry : WalkEntry) :
    List Unstructured × Option String :=
  match entry.walkErr with
  | some err => (manifests, some err)
  | none =>
    if Ext entry.path ≠ ".yaml" ∧ Ext entry.path ≠ ".yml" then (manifests, none)
    else
      match entry.readFile with
      | .error err => (manifests, some ("failed to read file " ++ entry.path ++ ": " ++ err))
      | .ok content => decodeLoop entry.path manifests content

/-- The library function `filepath.Walk`: the entries are visited in order until the walk function returns an
error, which `Walk` returns. -/
def walk (manifests : List Unstructured) : List WalkEntry → List Unstructured × Option String
  | [] => (manifests, none)
  | entry :: rest =>
    match walkFn manifests entry with
    | (manifests, some err) => (manifests, some err)
    | (manifests, none) => walk manifests rest

/-- The method `Manager.readManifests`: `return manifests, err`. The argument is the walk of the
directory at `manifestPath`. -/
def readManifests (dir : List WalkEntry) : List Unstructured × Option String :=
  walk [] dir

/-- The `Deployment` record of `manager.go`. -/
structure Deployment where
  Name : String
  Namespace : String
  ManifestPath : String
  DryRun : Bool
  deriving DecidableEq, Repr

/-- What `Deploy` does to the outside: a write to standard output, or a write call to the
orchestrator. -/
inductive Effect where
  | stdout (text : String)
  | gatewayApply (doc : Unstructured)
  deriving DecidableEq, Repr

/-- The write calls to the orchestrator in a sequence of effects. -/
def gatewayWrites : List Effect → List Unstructured
  | [] => []
  | .stdout _ :: rest => gatewayWrites rest
  | .gatewayApply doc :: rest => doc :: gatewayWrites rest

/-- How a call of `Deploy` ends: the returned `error`, the effects in order, and the
documents held in `manifests` as they are at the return. -/
structure DeployReturn where
  err : Option String
  effects : List Effect
  manifests : List Unstructured
  deriving DecidableEq, Repr

/-- Lines 82-84: the dry-run loop. -/
def dryRunLoop : List Unstructured → List Effect
  | [] => []
  | manifest :: rest =>
    .stdout ("  - " ++ manifest.GetKind ++ "/" ++ manifest.GetName ++ "\n") :: dryRunLoop rest

/-- Lines 89-99: the apply loop; it gives the effects and the documents after the loop. -/
def applyLoop (deployment : Deployment) : List Unstructured → List Effect × List Unstructured
  | [] => ([], [])
  | manifest :: rest =>
    let manifest :=
      if manifest.GetNamespace = "" then manifest.SetNamespace deployment.Namespace
      else manifest
    let line := Effect.stdout
      ("Applying " ++ manifest.GetKind ++ "/" ++ manifest.GetName ++ "...\n")
    ((line :: (applyLoop deployment rest).1), (manifest :: (applyLoop deployment rest).2))

/-- The method `Manager.Deploy`. The first argument is the walk of the directory at
`deployment.ManifestPath`. -/
def Deploy (dir : List WalkEntry) (deployment : Deployment) : DeployReturn :=
  match readManifests dir with
  | (manifests, some err) =>
    { err := some ("failed to read manifests: " ++ err), effects := [], manifests := manifests }
  | (manifests, none) =>
    if deployment.DryRun then
      { err := none,
        effects := .stdout ("Dry run - would deploy " ++ toString manifests.length ++
            " manifests for " ++ deployment.Name ++ "\n") :: dryRunLoop manifests,
        manifests := manifests }
    else
      { err := none,
        effects := (applyLoop deployment manifests).1 ++
          [.stdout ("Successfully deployed " ++ deployment.Name ++ "\n")],
        manifests := (applyLoop deployment manifests).2 }

/-- The namespace defaulting of one document: the target namespace when the document has
none, the document's own otherwise; nothing else changes. -/
def defaultNamespace (target : String) (doc : Unstructured) : Unstructured :=
  { Kind := doc.Kind, Name := doc.Name,
    Namespace := if doc.Namespace = "" then target else doc.Namespace,
    Fields := doc.Fields }

/-- A walk entry is considered: its extension is `.yaml` or `.yml`. -/
def considered (entry : WalkEntry) : Bool :=
  decide (Ext entry.path = ".yaml" ∨ Ext entry.path = ".yml")

/-- The documents of a decode stream, nil objects dropped. -/
def documentsOf : List Decoded → List Unstructured
  | [] => []
  | .document manifest :: rest => manifest :: documentsOf rest
  | _ :: rest => documentsOf rest

/-- The documents of one walk entry: those of its decode stream when the entry is
considered and readable, none otherwise. -/
def entryDocuments (entry : WalkEntry) : List Unstructured :=
  if considered entry then
    match entry.readFile with
    | .ok content => documentsOf content
    | .error _ => []
  else []

/-- The complete document list of a directory: the documents of every considered file, in
walk order and, within a file, in stream order. -/
def allDocuments : List WalkEntry → List Unstructured
  | [] => []
  | entry :: rest => entryDocuments entry ++ allDocuments rest

/-- The line the apply loop prints for a document. -/
def applyingLine (doc : Unstructured) : Effect :=
  .stdout ("Applying " ++ doc.Kind ++ "/" ++ doc.Name ++ "...\n")

end Apps

/-! ## Example inputs -/

namespace Apps

/-- A Service manifest that names no namespace. -/
def serviceDoc : Unstructured :=
  { Kind := "Service", Name := "web", Namespace := "", Fields := [("apiVersion", "v1")] }

/-- A ConfigMap manifest in namespace `kube-system`. -/
def configDoc : Unstructured :=
  { Kind := "ConfigMap", Name := "settings", Namespace := "kube-system",
    Fields := [("apiVersion", "v1")] }

/-- A directory with a README and one YAML file holding two documents and an empty one. -/
def goodDir : List WalkEntry :=
  [{ path := "manifests", walkErr := none, readFile := .error "is a directory" },
   { path := "manifests/README.md", walkErr := none, readFile := .ok [] },
   { path := "manifests/app.yaml", walkErr := none,
     readFile := .ok [.document serviceDoc, .nilObject, .document configDoc] }]

/-- A directory whose YAML file holds one good document followed by one that does not
decode. -/
def brokenDir : List WalkEntry :=
  [{ path := "manifests", walkErr := none, readFile := .error "is a directory" },
   { path := "manifests/app.yaml", walkErr := none,
     readFile := .ok [.document serviceDoc, .failure "yaml: line 9: mapping values are not allowed"] }]

/-- A directory whose first YAML file holds one good document and whose second YAML file
cannot be read. -/
def unreadableDir : List WalkEntry :=
  [{ path := "manifests/app.yaml", walkErr := none, readFile := .ok [.document serviceDoc] },
   { path := "manifests/secrets.yml", walkErr := none,
     readFile := .error "open manifests/secrets.yml: permission denied" }]

/-- A directory whose first YAML file holds one good document and whose sub-directory
cannot be listed. -/
def unlistableDir : List WalkEntry :=
  [{ path := "manifests/app.yaml", walkErr := none, readFile := .ok [.document configDoc] },
   { path := "manifests/private", walkErr := some "open manifests/private: permission denied",
     readFile := .error "is a directory" }]

/-- A request to apply `manifests` into namespace `prod`. -/
def applyRequest : Deployment :=
  { Name := "web", Namespace := "prod", ManifestPath := "manifests", DryRun := false }

/-- A request to preview `manifests` for namespace `prod`. -/
def dryRunRequest : Deployment :=
  { Name := "web", Namespace := "prod", ManifestPath := "manifests", DryRun := true }

/-- Ready 2 of 2, with a stale Progressing=False condition whose reason is
ProgressDeadlineExceeded. -/
def readyWithStaleCondition : Appsv1.Deployment :=
  { Name := "web", Namespace := "default", Spec := { Replicas := some 2 },
    Status := { ReadyReplicas := 2, Conditions :=
      [{ Typ := "Progressing", Status := "False", Reason := "ProgressDeadlineExceeded" }] } }

/-- Ready 0 of 3 with Progressing=False. -/
def stalledDeployment : Appsv1.Deployment :=
  { Name := "web", Namespace := "default", Spec := { Replicas := some 3 },
    Status := { ReadyReplicas := 0, Conditions :=
      [{ Typ := "Available", Status := "False", Reason := "MinimumReplicasUnavailable" },
       { Typ := "Progressing", Status := "False", Reason := "ReplicaSetCreateError" }] } }

/-- Ready 1 of 3 with a Progressing condition that does not disqualify. -/
def partialDeployment : Appsv1.Deployment :=
  { Name := "web", Namespace := "default", Spec := { Replicas := some 3 },
    Status := { ReadyReplicas := 1, Conditions :=
      [{ Typ := "Progressing", Status := "True", Reason := "ReplicaSetUpdated" }] } }

/-- Ready 0 of 3 with no Progressing condition. -/
def freshDeployment : Appsv1.Deployment :=
  { Name := "web", Namespace := "default", Spec := { Replicas := some 3 },
    Status := { ReadyReplicas := 0, Conditions := [] } }

end Apps

namespace K8s

/-- A pod query that takes no time and finds no pod. -/
def noPodFound : String → String → Nat → PodQuery :=
  fun _ _ _ => { took := 0, result := .ok [] }

/-- A pod query that takes half a second and finds no pod. -/
def slowNoPodFound : String → String → Nat → PodQuery :=
  fun _ _ _ => { took := 500000000, result := .ok [] }

/-- A pod query that takes no time and fails. -/
def queryRefused : String → String → Nat → PodQuery :=
  fun _ _ _ => { took := 0, result := .error "connection refused" }

/-- A Pending pod. -/
def pendingPod : Pod :=
  { Name := "web-0", Namespace := "default", Phase := "Pending", ContainerStatuses := [] }

/-- A Running pod whose two containers are ready. -/
def readyPod : Pod :=
  { Name := "web-1", Namespace := "default", Phase := "Running",
    ContainerStatuses := [{ Ready := true }, { Ready := true }] }

/-- A pod query that takes no time and finds a Pending pod followed by a ready pod. -/
def readyPodSecond : Nat → PodQuery :=
  fun _ => { took := 0, result := .ok [pendingPod, readyPod] }

end K8s

/-! # Theorems -/

namespace K8s

/-! ## Lemmas on the loops of `GetClusterStatus` -/

theorem conditionLoop_eq (status : ClusterStatus) (conds : List NodeCondition) :
    conditionLoop status conds =
      { status with ReadyNodes := status.ReadyNodes +
          (if conds.any (fun c => decide (c.Typ = NodeReady ∧ c.Status = ConditionTrue))
            then 1 else 0) } := by
  induction conds with
  | nil => simp [conditionLoop]
  | cons c rest ih =>
    by_cases h : c.Typ = NodeReady ∧ c.Status = ConditionTrue
    · simp [conditionLoop, h]
    · simp only [conditionLoop, h, if_false, ih, List.any_cons, decide_False, Bool.false_or]

theorem conditionLoop_node (status : ClusterStatus) (n : Node) :
    conditionLoop status n.Conditions =
      { status with ReadyNodes := status.ReadyNodes + (if nodeIsReady n = true then 1 else 0) } :=
  conditionLoop_eq status n.Conditions

theorem nodeLoop_eq (status : ClusterStatus) (nodes : List Node) :
    nodeLoop status nodes =
      { status with ReadyNodes := status.ReadyNodes + nodes.countP nodeIsReady } := by
  induction nodes generalizing status with
  | nil => simp [nodeLoop]
  | cons n rest ih =>
    rw [nodeLoop, ih, conditionLoop_node]
    by_cases h : nodeIsReady n = true
    · simp only [List.countP_cons, h, if_true]; congr 1; omega
    · simp [List.countP_cons, h]

theorem podLoop_eq (status : ClusterStatus) (pods : List Pod) :
    podLoop status pods =
      { status with
        RunningPods := status.RunningPods + pods.countP (fun p => decide (p.Phase = PodRunning))
        UnhealthyPods := status.UnhealthyPods ++ (pods.filter podIsUnhealthy).map podInfoOf } := by
  induction pods generalizing status with
  | nil => simp [podLoop]
  | cons p rest ih =>
    by_cases h1 : p.Phase = PodRunning
    · have h2 : podIsUnhealthy p = false := by
        simp [podIsUnhealthy, h1, PodRunning, PodFailed, PodPending]
      simp only [podLoop, h1, ih, List.countP_cons, h2, if_true, decide_True, List.filter_cons]
      simp only [Bool.false_eq_true, if_false]
      congr 1; omega
    · by_cases h2 : p.Phase = PodFailed ∨ p.Phase = PodPending
      · have h3 : podIsUnhealthy p = true := by simp [podIsUnhealthy, h2]
        simp [podLoop, h1, h2, ih, List.countP_cons, h3, podInfoOf]
      · have h3 : podIsUnhealthy p = false := by simp [podIsUnhealthy, h2]
        simp [podLoop, h1, h2, ih, List.countP_cons, h3]

end K8s

namespace K8s

/-- The report of `GetClusterStatus` when its three queries succeed, in closed form. -/
theorem GetClusterStatus_ok (nodes : List Node) (pods : List Pod)
    (namespaces : List NamespaceItem) :
    GetClusterStatus (.ok nodes) (.ok pods) (.ok namespaces) =
      .ok (determineStatus
        { Status := ""
          ReadyNodes := nodes.countP nodeIsReady
          TotalNodes := nodes.length
          RunningPods := pods.countP (fun p => decide (p.Phase = PodRunning))
          TotalPods := pods.length
          Namespaces := namespaces.length
          UnhealthyPods := (pods.filter podIsUnhealthy).map podInfoOf }) := by
  simp [GetClusterStatus, nodeLoop_eq, podLoop_eq, ClusterStatus.zero]

theorem determineStatus_fields (s : ClusterStatus) :
    (determineStatus s).ReadyNodes = s.ReadyNodes ∧
    (determineStatus s).TotalNodes = s.TotalNodes ∧
    (determineStatus s).RunningPods = s.RunningPods ∧
    (determineStatus s).TotalPods = s.TotalPods ∧
    (determineStatus s).Namespaces = s.Namespaces ∧
    (determineStatus s).UnhealthyPods = s.UnhealthyPods := by
  unfold determineStatus
  split_ifs <;> simp

theorem determineStatus_verdict (s : ClusterStatus) :
    (determineStatus s).Status =
      if s.ReadyNodes = s.TotalNodes ∧ s.UnhealthyPods = [] then "Healthy"
      else if s.ReadyNodes > 0 then "Degraded" else "Unhealthy" := by
  unfold determineStatus
  simp only [List.length_eq_zero]
  split_ifs <;> rfl

theorem pod_phase_partition (pods : List Pod) :
    pods.countP (fun p => decide (p.Phase = PodRunning)) +
        (pods.filter podIsUnhealthy).length +
        pods.countP (fun p => decide (p.Phase ≠ PodRunning ∧ p.Phase ≠ PodFailed ∧
          p.Phase ≠ PodPending)) = pods.length := by
  induction pods with
  | nil => rfl
  | cons p rest ih =>
    rw [List.countP_cons, List.countP_cons, List.filter_cons, List.length_cons]
    by_cases h1 : p.Phase = PodRunning
    · have h2 : podIsUnhealthy p = false := by
        simp [podIsUnhealthy, h1, PodRunning, PodFailed, PodPending]
      have h3 : decide (p.Phase ≠ PodRunning ∧ p.Phase ≠ PodFailed ∧
          p.Phase ≠ PodPending) = false := by simp [h1]
      have h1' : decide (p.Phase = PodRunning) = true := by simp [h1]
      simp only [h1', h2, h3, if_true, Bool.false_eq_true, if_false]
      omega
    · have h1' : decide (p.Phase = PodRunning) = false := by simp [h1]
      by_cases h2 : p.Phase = PodFailed ∨ p.Phase = PodPending
      · have h3 : podIsUnhealthy p = true := by simp [podIsUnhealthy, h2]
        have h4 : decide (p.Phase ≠ PodRunning ∧ p.Phase ≠ PodFailed ∧
            p.Phase ≠ PodPending) = false := by
          rcases h2 with h2 | h2 <;> simp [h2]
        simp only [h1', h3, h4, if_true, Bool.false_eq_true, if_false, List.length_cons]
        omega
      · have h3 : podIsUnhealthy p = false := by simp [podIsUnhealthy, h2]
        have h4 : decide (p.Phase ≠ PodRunning ∧ p.Phase ≠ PodFailed ∧
            p.Phase ≠ PodPending) = true := by
          push_neg at h2
          simp [h1, h2.1, h2.2]
        simp only [h1', h3, h4, if_true, Bool.false_eq_true, if_false]
        omega

/-- C1: when the node and pod queries succeed, the reported Status is "Healthy" iff
ReadyNodes = TotalNodes and UnhealthyPods is empty; otherwise it is "Degraded" iff
ReadyNodes > 0; otherwise it is "Unhealthy". With no node at all the report is "Healthy"
when no pod is Failed or Pending, and "Unhealthy" when some pod is. -/
theorem cluster_status_verdict (nodes : List Node) (pods : List Pod)
    (namespaces : List NamespaceItem) :
    ∃ s, GetClusterStatus (.ok nodes) (.ok pods) (.ok namespaces) = .ok s ∧
      (s.Status = "Healthy" ↔ s.ReadyNodes = s.TotalNodes ∧ s.UnhealthyPods = []) ∧
      (¬(s.ReadyNodes = s.TotalNodes ∧ s.UnhealthyPods = []) →
        (s.Status = "Degraded" ↔ s.ReadyNodes > 0)) ∧
      (¬(s.ReadyNodes = s.TotalNodes ∧ s.UnhealthyPods = []) → ¬ s.ReadyNodes > 0 →
        s.Status = "Unhealthy") ∧
      (s.Status = "Healthy" ∨ s.Status = "Degraded" ∨ s.Status = "Unhealthy") ∧
      (nodes = [] → (∀ p ∈ pods, p.Phase ≠ PodFailed ∧ p.Phase ≠ PodPending) →
        s.Status = "Healthy") ∧
      (nodes = [] → (∃ p ∈ pods, p.Phase = PodFailed ∨ p.Phase = PodPending) →
        s.Status = "Unhealthy") := by
  refine ⟨_, GetClusterStatus_ok nodes pods namespaces, ?_⟩
  obtain ⟨hr, ht, -, -, -, hu⟩ := determineStatus_fields
    { Status := ""
      ReadyNodes := nodes.countP nodeIsReady
      TotalNodes := nodes.length
      RunningPods := pods.countP (fun p => decide (p.Phase = PodRunning))
      TotalPods := pods.length
      Namespaces := namespaces.length
      UnhealthyPods := (pods.filter podIsUnhealthy).map podInfoOf }
  rw [hr, ht, hu, determineStatus_verdict]
  simp only []
  refine ⟨?_, ?_, ?_, ?_, ?_, ?_⟩
  · split_ifs <;> simp_all
  · intro h; split_ifs <;> simp_all
  · intro h h'; split_ifs; simp_all
  · split_ifs <;> simp
  · intro hn hp
    subst hn
    have : List.filter podIsUnhealthy pods = [] := by
      rw [List.filter_eq_nil_iff]
      intro p hp'
      have := hp p hp'
      simp [podIsUnhealthy, this.1, this.2]
    simp [this]
  · rintro hn ⟨p, hp, hph⟩
    subst hn
    have : List.filter podIsUnhealthy pods ≠ [] := by
      intro h
      rw [List.filter_eq_nil_iff] at h
      exact h p hp (by simp [podIsUnhealthy, hph])
    simp [this]

/-- C4: RunningPods is the number of pods whose phase is Running; UnhealthyPods is, in input
order, the sub-list of the pods whose phase is Failed or Pending, each entry carrying the
pod's name, namespace and phase; every other pod (Succeeded, Unknown) is counted in
TotalPods only, so RunningPods + len(UnhealthyPods) ≤ TotalPods = number of pods. -/
theorem cluster_status_pods (nodes : List Node) (pods : List Pod)
    (namespaces : List NamespaceItem) :
    ∃ s, GetClusterStatus (.ok nodes) (.ok pods) (.ok namespaces) = .ok s ∧
      s.RunningPods = pods.countP (fun p => decide (p.Phase = PodRunning)) ∧
      s.UnhealthyPods =
        (pods.filter (fun p => decide (p.Phase = PodFailed ∨ p.Phase = PodPending))).map
          (fun p => { Name := p.Name, Namespace := p.Namespace, Phase := p.Phase }) ∧
      s.TotalPods = pods.length ∧
      s.RunningPods + s.UnhealthyPods.length +
        pods.countP (fun p => decide (p.Phase ≠ PodRunning ∧ p.Phase ≠ PodFailed ∧
          p.Phase ≠ PodPending)) = s.TotalPods ∧
      pods.countP (fun p => decide (p.Phase = PodSucceeded ∨ p.Phase = PodUnknown)) ≤
        s.TotalPods - (s.RunningPods + s.UnhealthyPods.length) ∧
      s.RunningPods + s.UnhealthyPods.length ≤ s.TotalPods := by
  refine ⟨_, GetClusterStatus_ok nodes pods namespaces, ?_⟩
  obtain ⟨-, -, hr, ht, -, hu⟩ := determineStatus_fields
    { Status := ""
      ReadyNodes := nodes.countP nodeIsReady
      TotalNodes := nodes.length
      RunningPods := pods.countP (fun p => decide (p.Phase = PodRunning))
      TotalPods := pods.length
      Namespaces := namespaces.length
      UnhealthyPods := (pods.filter podIsUnhealthy).map podInfoOf }
  dsimp only at hr ht hu
  generalize determineStatus _ = s at hr ht hu ⊢
  rw [hr, ht, hu, List.length_map]
  have hsum := pod_phase_partition pods
  have hsub : pods.countP (fun p => decide (p.Phase = PodSucceeded ∨ p.Phase = PodUnknown)) ≤
      pods.countP (fun p => decide (p.Phase ≠ PodRunning ∧ p.Phase ≠ PodFailed ∧
          p.Phase ≠ PodPending)) := by
    apply List.countP_mono_left
    intro p _ hp
    simp only [decide_eq_true_eq] at hp ⊢
    rcases hp with hp | hp <;>
      simp [hp, PodSucceeded, PodUnknown, PodRunning, PodFailed, PodPending]
  refine ⟨rfl, rfl, rfl, hsum, ?_, ?_⟩
  · omega
  · omega

/-- C5: ReadyNodes is the number of nodes that carry at least one condition of type Ready
with status True, each node counted at most once; 0 ≤ ReadyNodes ≤ TotalNodes and
TotalNodes is the length of the node list. -/
theorem cluster_status_nodes (nodes : List Node) (pods : List Pod)
    (namespaces : List NamespaceItem) :
    ∃ s, GetClusterStatus (.ok nodes) (.ok pods) (.ok namespaces) = .ok s ∧
      s.ReadyNodes = nodes.countP
        (fun n => decide (∃ c ∈ n.Conditions, c.Typ = NodeReady ∧ c.Status = ConditionTrue)) ∧
      s.ReadyNodes = (nodes.filter
        (fun n => decide (∃ c ∈ n.Conditions, c.Typ = NodeReady ∧ c.Status = ConditionTrue))).length ∧
      0 ≤ s.ReadyNodes ∧ s.ReadyNodes ≤ s.TotalNodes ∧ s.TotalNodes = nodes.length := by
  refine ⟨_, GetClusterStatus_ok nodes pods namespaces, ?_⟩
  obtain ⟨hr, ht, -, -, -, -⟩ := determineStatus_fields
    { Status := ""
      ReadyNodes := nodes.countP nodeIsReady
      TotalNodes := nodes.length
      RunningPods := pods.countP (fun p => decide (p.Phase = PodRunning))
      TotalPods := pods.length
      Namespaces := namespaces.length
      UnhealthyPods := (pods.filter podIsUnhealthy).map podInfoOf }
  rw [hr, ht]
  have hfun : nodeIsReady = (fun n : Node =>
      decide (∃ c ∈ n.Conditions, c.Typ = NodeReady ∧ c.Status = ConditionTrue)) := by
    funext n
    simp [nodeIsReady, List.any_eq]
  rw [← hfun]
  exact ⟨rfl, List.countP_eq_length_filter _ _, Nat.zero_le _, List.countP_le_length _, rfl⟩

end K8s

namespace Apps

open K8s (ConditionFalse)
open Appsv1 (DeploymentProgressing)

/-! ## `getDeploymentStatus` -/

theorem progressingLoop_eq (conditions : List Appsv1.DeploymentCondition) :
    progressingLoop conditions =
      if ∃ c ∈ conditions, disqualifies c then some "Failed" else none := by
  induction conditions with
  | nil => simp [progressingLoop]
  | cons c rest ih =>
    by_cases hd : disqualifies c
    · have hex : ∃ x ∈ c :: rest, disqualifies x := ⟨c, List.mem_cons_self _ _, hd⟩
      rw [if_pos hex]
      obtain ⟨ht, hs | hr⟩ := hd
      · simp [progressingLoop, ht, hs]
      · simp [progressingLoop, ht, hr]
    · have hiff : (∃ x ∈ c :: rest, disqualifies x) ↔ ∃ x ∈ rest, disqualifies x := by
        simp [hd]
      rw [if_congr hiff rfl rfl, ← ih]
      by_cases ht : c.Typ = DeploymentProgressing
      · have hs : ¬ c.Status = ConditionFalse := fun hs => hd ⟨ht, Or.inl hs⟩
        have hr : ¬ c.Reason = "ProgressDeadlineExceeded" := fun hr => hd ⟨ht, Or.inr hr⟩
        simp [progressingLoop, ht, hs, hr]
      · simp [progressingLoop, ht]

/-- The verdict of `getDeploymentStatus` for a present replica count, in closed form. -/
theorem getDeploymentStatus_eq (deployment : Appsv1.Deployment) (replicas : Int)
    (hpresent : deployment.Spec.Replicas = some replicas) :
    getDeploymentStatus deployment = some (
      if deployment.Status.ReadyReplicas = replicas then "Ready"
      else if ∃ c ∈ deployment.Status.Conditions, disqualifies c then "Failed"
      else if deployment.Status.ReadyReplicas > 0 then "Degraded"
      else "Pending") := by
  unfold getDeploymentStatus
  rw [hpresent, progressingLoop_eq]
  simp only []
  split_ifs <;> rfl

/-- C2: for a deployment whose desired replica count is present, `getDeploymentStatus`
returns a verdict, and the verdict is "Ready" iff the ready replica count equals the desired
count exactly, whatever the conditions are: replacing the conditions by any others (a
Progressing condition with status False or reason ProgressDeadlineExceeded among them)
keeps a Ready verdict, and a ready count above the desired count is not Ready. -/
theorem deployment_ready_iff (deployment : Appsv1.Deployment) (replicas : Int)
    (hpresent : deployment.Spec.Replicas = some replicas) :
    (∃ verdict, getDeploymentStatus deployment = some verdict) ∧
    (getDeploymentStatus deployment = some "Ready" ↔
      deployment.Status.ReadyReplicas = replicas) ∧
    (deployment.Status.ReadyReplicas = replicas →
      ∀ conditions : List Appsv1.DeploymentCondition,
        getDeploymentStatus
          { Name := deployment.Name, Namespace := deployment.Namespace,
            Spec := deployment.Spec,
            Status := { ReadyReplicas := deployment.Status.ReadyReplicas,
                        Conditions := conditions } } = some "Ready") ∧
    (deployment.Status.ReadyReplicas > replicas →
      getDeploymentStatus deployment ≠ some "Ready") := by
  have hiff : getDeploymentStatus deployment = some "Ready" ↔
      deployment.Status.ReadyReplicas = replicas := by
    rw [getDeploymentStatus_eq deployment replicas hpresent]
    split_ifs with h1 h2 h3 <;> simp [h1]
  refine ⟨⟨_, getDeploymentStatus_eq deployment replicas hpresent⟩, hiff, ?_, ?_⟩
  · intro heq conditions
    refine (getDeploymentStatus_eq ⟨deployment.Name, deployment.Namespace, deployment.Spec,
      ⟨deployment.Status.ReadyReplicas, conditions⟩⟩ replicas hpresent).trans ?_
    simp [heq]
  · intro hgt hready
    have := hiff.mp hready
    omega

/-- C3: for a deployment whose ready replica count differs from its present desired count,
`getDeploymentStatus` returns "Failed" iff some condition of type Progressing has status
False or reason ProgressDeadlineExceeded (also when ready replicas > 0); otherwise it
returns "Degraded" iff the ready replica count is > 0; otherwise it returns "Pending". -/
theorem deployment_not_ready_verdict (deployment : Appsv1.Deployment) (replicas : Int)
    (hpresent : deployment.Spec.Replicas = some replicas)
    (hdiffer : deployment.Status.ReadyReplicas ≠ replicas) :
    (getDeploymentStatus deployment = some "Failed" ↔
      ∃ c ∈ deployment.Status.Conditions, c.Typ = DeploymentProgressing ∧
        (c.Status = ConditionFalse ∨ c.Reason = "ProgressDeadlineExceeded")) ∧
    ((¬ ∃ c ∈ deployment.Status.Conditions, c.Typ = DeploymentProgressing ∧
        (c.Status = ConditionFalse ∨ c.Reason = "ProgressDeadlineExceeded")) →
      (getDeploymentStatus deployment = some "Degraded" ↔
        deployment.Status.ReadyReplicas > 0)) ∧
    ((¬ ∃ c ∈ deployment.Status.Conditions, c.Typ = DeploymentProgressing ∧
        (c.Status = ConditionFalse ∨ c.Reason = "ProgressDeadlineExceeded")) →
      ¬ deployment.Status.ReadyReplicas > 0 →
      getDeploymentStatus deployment = some "Pending") := by
  rw [getDeploymentStatus_eq deployment replicas hpresent, if_neg hdiffer]
  have hdis : (∃ c ∈ deployment.Status.Conditions, c.Typ = DeploymentProgressing ∧
        (c.Status = ConditionFalse ∨ c.Reason = "ProgressDeadlineExceeded")) ↔
      ∃ c ∈ deployment.Status.Conditions, disqualifies c := Iff.rfl
  rw [hdis]
  refine ⟨?_, ?_, ?_⟩
  · split_ifs with h1 h2 <;> simp [h1]
  · intro h1
    rw [if_neg h1]
    split_ifs with h2 <;> simp [h2]
  · intro h1 h2
    rw [if_neg h1, if_neg h2]

/-- Witness of C2: ready 2 of 2 with a stale Progressing=False condition is Ready. -/
theorem deployment_ready_iff_witness :
    getDeploymentStatus readyWithStaleCondition = some "Ready" :=
  (deployment_ready_iff readyWithStaleCondition 2 rfl).2.1.mpr rfl

/-- Witness of C3: ready 0 / desired 3 with Progressing=False is Failed; ready 1 / desired 3
with no disqualifying Progressing condition is Degraded; ready 0 / desired 3 with no
Progressing condition is Pending. -/
theorem deployment_not_ready_verdict_witness :
    getDeploymentStatus stalledDeployment = some "Failed" ∧
    getDeploymentStatus partialDeployment = some "Degraded" ∧
    getDeploymentStatus freshDeployment = some "Pending" :=
  ⟨(deployment_not_ready_verdict stalledDeployment 3 rfl (by decide)).1.mpr (by decide),
   ((deployment_not_ready_verdict partialDeployment 3 rfl (by decide)).2.1 (by decide)).mpr
     (by decide),
   (deployment_not_ready_verdict freshDeployment 3 rfl (by decide)).2.2 (by decide)
     (by decide)⟩

end Apps

namespace K8s

/-! ## `WaitForPod` -/

theorem containerLoop_true (statuses : List ContainerStatus) :
    containerLoop true statuses = true ↔ ∀ status ∈ statuses, status.Ready = true := by
  induction statuses with
  | nil => simp [containerLoop]
  | cons st rest ih =>
    cases hst : st.Ready <;> simp [containerLoop, hst, ih]

theorem pollSucceeds_iff (items : List Pod) :
    pollSucceeds items = true ↔ ∃ pod rest, items = pod :: rest ∧ podFullyReady pod := by
  cases items with
  | nil => simp [pollSucceeds]
  | cons pod rest =>
    by_cases hph : pod.Phase = PodRunning
    · simp [pollSucceeds, hph, podFullyReady, containerLoop_true]
    · simp [pollSucceeds, hph, podFullyReady]

theorem WaitForPodLoop_done (list : Nat → PodQuery) (doneAt : Nat) (labelSelector : String)
    (polls now : Nat) (hdone : doneAt ≤ now) :
    WaitForPodLoop list doneAt labelSelector polls now =
      { instant := now, polls := polls,
        err := some ("timeout waiting for pod with selector " ++ labelSelector) } := by
  rw [WaitForPodLoop, if_pos hdone]

theorem WaitForPodLoop_error (list : Nat → PodQuery) (doneAt : Nat) (labelSelector : String)
    (polls now : Nat) (err : String) (hlive : ¬ doneAt ≤ now)
    (hres : (list now).result = .error err) :
    WaitForPodLoop list doneAt labelSelector polls now =
      { instant := now + (list now).took, polls := polls + 1,
        err := some ("failed to list pods: " ++ err) } := by
  rw [WaitForPodLoop, if_neg hlive, hres]

theorem WaitForPodLoop_success (list : Nat → PodQuery) (doneAt : Nat) (labelSelector : String)
    (polls now : Nat) (items : List Pod) (hlive : ¬ doneAt ≤ now)
    (hres : (list now).result = .ok items) (hready : pollSucceeds items = true) :
    WaitForPodLoop list doneAt labelSelector polls now =
      { instant := now + (list now).took, polls := polls + 1, err := none } := by
  rw [WaitForPodLoop, if_neg hlive, hres]
  simp [hready]

theorem WaitForPodLoop_retry (list : Nat → PodQuery) (doneAt : Nat) (labelSelector : String)
    (polls now : Nat) (items : List Pod) (hlive : ¬ doneAt ≤ now)
    (hres : (list now).result = .ok items) (hready : pollSucceeds items = false) :
    WaitForPodLoop list doneAt labelSelector polls now =
      WaitForPodLoop list doneAt labelSelector (polls + 1)
        (now + (list now).took + 2 * Second) := by
  rw [WaitForPodLoop, if_neg hlive, hres]
  simp [hready]

/-- The loop never returns before the instant it is entered. -/
theorem WaitForPodLoop_instant_ge (list : Nat → PodQuery) (doneAt : Nat)
    (labelSelector : String) (n : Nat) :
    ∀ polls now, doneAt - now ≤ n →
      now ≤ (WaitForPodLoop list doneAt labelSelector polls now).instant := by
  induction n with
  | zero =>
    intro polls now h
    rw [WaitForPodLoop_done list doneAt labelSelector polls now (by omega)]
  | succ n ih =>
    intro polls now h
    by_cases hdone : doneAt ≤ now
    · rw [WaitForPodLoop_done list doneAt labelSelector polls now hdone]
    · cases hres : (list now).result with
      | error err =>
        rw [WaitForPodLoop_error list doneAt labelSelector polls now err hdone hres]
        exact Nat.le_add_right _ _
      | ok items =>
        cases hready : pollSucceeds items with
        | true =>
          rw [WaitForPodLoop_success list doneAt labelSelector polls now items hdone hres hready]
          exact Nat.le_add_right _ _
        | false =>
          rw [WaitForPodLoop_retry list doneAt labelSelector polls now items hdone hres hready]
          have hs : Second = 1000000000 := rfl
          have := ih (polls + 1) (now + (list now).took + 2 * Second) (by omega)
          omega

/-- C6: on a poll of `WaitForPod` whose pod query succeeds (the context is not done at the
top of the iteration and the query returns `items`), the call returns success on that poll
iff `items` has a first pod, that pod's phase is Running and every one of its container
statuses is ready; only the first pod is inspected, so whatever follows a first pod that is
not ready, the call does not return success on that poll. -/
theorem wait_poll_success_iff (list : Nat → PodQuery) (doneAt : Nat) (labelSelector : String)
    (polls now : Nat) (items : List Pod) (hlive : ¬ doneAt ≤ now)
    (hres : (list now).result = .ok items) :
    (WaitForPodLoop list doneAt labelSelector polls now =
        { instant := now + (list now).took, polls := polls + 1, err := none } ↔
      ∃ pod rest, items = pod :: rest ∧ pod.Phase = PodRunning ∧
        ∀ status ∈ pod.ContainerStatuses, status.Ready = true) ∧
    (∀ pod rest, items = pod :: rest →
      ¬ (pod.Phase = PodRunning ∧ ∀ status ∈ pod.ContainerStatuses, status.Ready = true) →
      WaitForPodLoop list doneAt labelSelector polls now ≠
        { instant := now + (list now).took, polls := polls + 1, err := none }) := by
  have hiff : WaitForPodLoop list doneAt labelSelector polls now =
        { instant := now + (list now).took, polls := polls + 1, err := none } ↔
      ∃ pod rest, items = pod :: rest ∧ podFullyReady pod := by
    rw [← pollSucceeds_iff]
    constructor
    · intro hret
      by_contra hnot
      have hfalse : pollSucceeds items = false := by simpa using hnot
      rw [WaitForPodLoop_retry list doneAt labelSelector polls now items hlive hres hfalse]
        at hret
      have hge := WaitForPodLoop_instant_ge list doneAt labelSelector
        (doneAt - (now + (list now).took + 2 * Second)) (polls + 1)
        (now + (list now).took + 2 * Second) (Nat.le_refl _)
      rw [hret] at hge
      have hs : Second = 1000000000 := rfl
      simp only [] at hge
      omega
    · intro hready
      exact WaitForPodLoop_success list doneAt labelSelector polls now items hlive hres hready
  refine ⟨hiff, ?_⟩
  intro pod rest hitems hnot hret
  obtain ⟨pod', rest', heq, hfull⟩ := hiff.mp hret
  rw [hitems] at heq
  injection heq with hpod _
  exact hnot (hpod ▸ hfull)

/-- Witness of C6: the query returns a Pending pod followed by a fully ready pod; the poll
does not return success. -/
theorem wait_poll_success_iff_witness :
    podFullyReady readyPod ∧
    WaitForPodLoop readyPodSecond (10 * Second) "app=web" 0 0 ≠
      { instant := 0 + (readyPodSecond 0).took, polls := 0 + 1, err := none } :=
  ⟨by decide,
   (wait_poll_success_iff readyPodSecond (10 * Second) "app=web" 0 0 [pendingPod, readyPod]
      (by decide) rfl).2 pendingPod [readyPod] rfl (by decide)⟩

end K8s

namespace K8s

/-- While the polls made at the first `k` tops of iteration come before the context is done
and do not succeed, the loop is at its `k`-th top of iteration with `k` more queries made. -/
theorem WaitForPodLoop_checks (list : Nat → PodQuery) (doneAt : Nat) (labelSelector : String)
    (start : Nat) :
    ∀ k, (∀ j < k, checkInstant list start j < doneAt ∧
        ∃ items, (list (checkInstant list start j)).result = .ok items ∧
          pollSucceeds items = false) →
      ∀ polls, WaitForPodLoop list doneAt labelSelector polls start =
        WaitForPodLoop list doneAt labelSelector (polls + k) (checkInstant list start k) := by
  intro k
  induction k with
  | zero => intro _ polls; rfl
  | succ k ih =>
    intro h polls
    rw [ih (fun j hj => h j (Nat.lt_succ_of_lt hj)) polls]
    obtain ⟨hlt, items, hres, hready⟩ := h k (Nat.lt_succ_self k)
    rw [WaitForPodLoop_retry list doneAt labelSelector (polls + k) (checkInstant list start k)
      items (by omega) hres hready]
    rfl

theorem checkInstant_ge (list : Nat → PodQuery) (start : Nat) (k : Nat) :
    k ≤ checkInstant list start k := by
  have hs : Second = 1000000000 := rfl
  induction k with
  | zero => exact Nat.zero_le _
  | succ k ih =>
    show k + 1 ≤ checkInstant list start k + (list (checkInstant list start k)).took + 2 * Second
    omega

theorem findsNoReadyPod_pollSucceeds (query : PodQuery) (h : findsNoReadyPod query) :
    ∃ items, query.result = .ok items ∧ pollSucceeds items = false := by
  obtain ⟨items, hres, hnot⟩ := h
  refine ⟨items, hres, ?_⟩
  have := (pollSucceeds_iff items).not.mpr hnot
  simpa using this

/-- C7, counterexample: no pod is ever found, queries take no time, the caller never
cancels, the timeout is 3 seconds and the call starts at instant 0. The deadline fires at
3 s, inside the second sleep (from 2 s to 4 s); the call returns the timeout failure at 4 s,
not at the instant the deadline fires. And when the pod query fails, the call returns the
query failure, not the timeout failure. -/
theorem wait_returns_after_deadline :
    ctxDoneAt none (3 * Second) 0 = 3 * Second ∧
    WaitForPod noPodFound none "default" "app=web" (3 * Second) 0 =
      { instant := 4 * Second, polls := 2,
        err := some "timeout waiting for pod with selector app=web" } ∧
    (WaitForPod noPodFound none "default" "app=web" (3 * Second) 0).instant ≠
      ctxDoneAt none (3 * Second) 0 ∧
    WaitForPod queryRefused none "default" "app=web" (3 * Second) 0 =
      { instant := 0, polls := 1, err := some "failed to list pods: connection refused" } := by
  have hrun : WaitForPod noPodFound none "default" "app=web" (3 * Second) 0 =
      { instant := 4 * Second, polls := 2,
        err := some "timeout waiting for pod with selector app=web" } := by
    unfold WaitForPod
    rw [WaitForPodLoop_retry _ _ _ _ _ [] (by decide) rfl rfl,
      WaitForPodLoop_retry _ _ _ _ _ [] (by decide) rfl rfl,
      WaitForPodLoop_done _ _ _ _ _ (by decide)]
    rfl
  refine ⟨by decide, hrun, ?_, ?_⟩
  · rw [hrun]
    decide
  · unfold WaitForPod
    rw [WaitForPodLoop_error _ _ _ _ _ "connection refused" (by decide) rfl]
    rfl

/-- C7, amended: `WaitForPod` checks the context at the top of every iteration only, not
during the sleep. The tops of iteration are the instants `checkInstant`: the start, then each
previous top plus its pod query plus the whole 2-second sleep. If the polls at the first `k`
tops come before the deadline or cancellation fires and find no first pod ready, then
(1) if the signal has fired by the `k`-th top, the call returns the timeout failure exactly
at that top, after `k` queries, however early in the preceding sleep the signal fired, which
is less than one query duration plus 2 seconds after the signal; (2) if instead the query at
the `k`-th top fails, the call returns the list failure, not the timeout failure. And in
every run whose polls all succeed without finding a ready first pod, the call does return the
timeout failure, at the first top of iteration at or after the signal. -/
theorem wait_timeout_at_next_check (list : String → String → Nat → PodQuery)
    (parentDone : Option Nat) (ns labelSelector : String) (timeout start : Nat) :
    (∀ k,
      (∀ j < k,
        checkInstant (list ns labelSelector) start j < ctxDoneAt parentDone timeout start ∧
        findsNoReadyPod (list ns labelSelector (checkInstant (list ns labelSelector) start j))) →
      (ctxDoneAt parentDone timeout start ≤ checkInstant (list ns labelSelector) start k →
        WaitForPod list parentDone ns labelSelector timeout start =
          { instant := checkInstant (list ns labelSelector) start k, polls := k,
            err := some ("timeout waiting for pod with selector " ++ labelSelector) }) ∧
      (∀ j, j + 1 = k →
        checkInstant (list ns labelSelector) start k <
          ctxDoneAt parentDone timeout start +
            (list ns labelSelector (checkInstant (list ns labelSelector) start j)).took +
            2 * Second) ∧
      (∀ err, checkInstant (list ns labelSelector) start k < ctxDoneAt parentDone timeout start →
        (list ns labelSelector (checkInstant (list ns labelSelector) start k)).result =
          .error err →
        WaitForPod list parentDone ns labelSelector timeout start =
          { instant := checkInstant (list ns labelSelector) start k +
              (list ns labelSelector (checkInstant (list ns labelSelector) start k)).took,
            polls := k + 1, err := some ("failed to list pods: " ++ err) })) ∧
    ((∀ j, checkInstant (list ns labelSelector) start j < ctxDoneAt parentDone timeout start →
        findsNoReadyPod (list ns labelSelector (checkInstant (list ns labelSelector) start j))) →
      ∃ k, (∀ j < k,
          checkInstant (list ns labelSelector) start j < ctxDoneAt parentDone timeout start) ∧
        ctxDoneAt parentDone timeout start ≤ checkInstant (list ns labelSelector) start k ∧
        WaitForPod list parentDone ns labelSelector timeout start =
          { instant := checkInstant (list ns labelSelector) start k, polls := k,
            err := some ("timeout waiting for pod with selector " ++ labelSelector) }) := by
  have hloop : ∀ k,
      (∀ j < k,
        checkInstant (list ns labelSelector) start j < ctxDoneAt parentDone timeout start ∧
        findsNoReadyPod (list ns labelSelector (checkInstant (list ns labelSelector) start j))) →
      WaitForPod list parentDone ns labelSelector timeout start =
        WaitForPodLoop (list ns labelSelector) (ctxDoneAt parentDone timeout start)
          labelSelector k (checkInstant (list ns labelSelector) start k) := by
    intro k h
    unfold WaitForPod
    rw [WaitForPodLoop_checks (list ns labelSelector) (ctxDoneAt parentDone timeout start)
      labelSelector start k
      (fun j hj => ⟨(h j hj).1, findsNoReadyPod_pollSucceeds _ (h j hj).2⟩) 0, Nat.zero_add]
  have htimeout : ∀ k,
      (∀ j < k,
        checkInstant (list ns labelSelector) start j < ctxDoneAt parentDone timeout start ∧
        findsNoReadyPod (list ns labelSelector (checkInstant (list ns labelSelector) start j))) →
      ctxDoneAt parentDone timeout start ≤ checkInstant (list ns labelSelector) start k →
      WaitForPod list parentDone ns labelSelector timeout start =
        { instant := checkInstant (list ns labelSelector) start k, polls := k,
          err := some ("timeout waiting for pod with selector " ++ labelSelector) } := by
    intro k h hdone
    rw [hloop k h]
    exact WaitForPodLoop_done _ _ _ _ _ hdone
  refine ⟨fun k h => ⟨htimeout k h, ?_, ?_⟩, ?_⟩
  · intro j hj
    subst hj
    have hlt := (h j (Nat.lt_succ_self j)).1
    show checkInstant (list ns labelSelector) start j +
        (list ns labelSelector (checkInstant (list ns labelSelector) start j)).took +
        2 * Second < _
    omega
  · intro err hlive hres
    rw [hloop k h]
    exact WaitForPodLoop_error _ _ _ _ _ err (by omega) hres
  · intro hall
    have hex : ∃ k, ctxDoneAt parentDone timeout start ≤
        checkInstant (list ns labelSelector) start k :=
      ⟨ctxDoneAt parentDone timeout start, checkInstant_ge _ _ _⟩
    have hmin : ∀ j < Nat.find hex,
        checkInstant (list ns labelSelector) start j < ctxDoneAt parentDone timeout start :=
      fun j hj => Nat.lt_of_not_le (Nat.find_min hex hj)
    exact ⟨Nat.find hex, hmin, Nat.find_spec hex,
      htimeout _ (fun j hj => ⟨hmin j hj, hall j (hmin j hj)⟩) (Nat.find_spec hex)⟩

/-- Witness of the amended C7: queries take half a second and find no pod, the timeout is
4 seconds from instant 0. The tops of iteration are 0 s, 2.5 s and 5 s; the deadline fires
at 4 s, during the second sleep, and the call returns the timeout failure at 5 s after two
queries. When the first query fails, the call returns the list failure. -/
theorem wait_timeout_at_next_check_witness :
    WaitForPod slowNoPodFound none "default" "app=web" (4 * Second) 0 =
      { instant := 5 * Second, polls := 2,
        err := some "timeout waiting for pod with selector app=web" } ∧
    WaitForPod queryRefused none "default" "app=web" (4 * Second) 0 =
      { instant := 0, polls := 1, err := some "failed to list pods: connection refused" } :=
  ⟨((wait_timeout_at_next_check slowNoPodFound none "default" "app=web" (4 * Second) 0).1 2
      (fun j hj => by
        have hcases : j = 0 ∨ j = 1 := by omega
        rcases hcases with h | h <;> subst h <;>
          exact ⟨by decide, [], rfl, by simp⟩)).1 (by decide),
   ((wait_timeout_at_next_check queryRefused none "default" "app=web" (4 * Second) 0).1 0
      (fun j hj => absurd hj (Nat.not_lt_zero j))).2.2 "connection refused" (by decide) rfl⟩

end K8s

namespace Apps

/-! ## `readManifests` and `Deploy` -/

theorem applyLoop_eq (deployment : Deployment) (manifests : List Unstructured) :
    applyLoop deployment manifests =
      (manifests.map applyingLine, manifests.map (defaultNamespace deployment.Namespace)) := by
  induction manifests with
  | nil => rfl
  | cons m rest ih =>
    rw [applyLoop, ih]
    by_cases hns : m.Namespace = ""
    · simp [Unstructured.GetNamespace, Unstructured.SetNamespace, Unstructured.GetKind,
        Unstructured.GetName, applyingLine, defaultNamespace, hns]
    · simp [Unstructured.GetNamespace, Unstructured.GetKind,
        Unstructured.GetName, applyingLine, defaultNamespace, hns]

theorem gatewayWrites_applyingLines (manifests : List Unstructured) (tail : List Effect) :
    gatewayWrites (manifests.map applyingLine ++ tail) = gatewayWrites tail := by
  induction manifests with
  | nil => rfl
  | cons m rest ih => simpa [applyingLine, gatewayWrites] using ih

theorem Deploy_apply (dir : List WalkEntry) (deployment : Deployment)
    (loaded : List Unstructured) (hload : readManifests dir = (loaded, none))
    (hmode : deployment.DryRun = false) :
    Deploy dir deployment =
      { err := none,
        effects := loaded.map applyingLine ++
          [.stdout ("Successfully deployed " ++ deployment.Name ++ "\n")],
        manifests := loaded.map (defaultNamespace deployment.Namespace) } := by
  unfold Deploy
  rw [hload]
  simp [hmode, applyLoop_eq]

theorem Deploy_dryRun (dir : List WalkEntry) (deployment : Deployment)
    (loaded : List Unstructured) (hload : readManifests dir = (loaded, none))
    (hmode : deployment.DryRun = true) :
    Deploy dir deployment =
      { err := none,
        effects := .stdout ("Dry run - would deploy " ++ toString loaded.length ++
            " manifests for " ++ deployment.Name ++ "\n") :: dryRunLoop loaded,
        manifests := loaded } := by
  unfold Deploy
  rw [hload]
  simp [hmode]

theorem Deploy_error (dir : List WalkEntry) (deployment : Deployment)
    (docs : List Unstructured) (err : String) (hload : readManifests dir = (docs, some err)) :
    Deploy dir deployment =
      { err := some ("failed to read manifests: " ++ err), effects := [], manifests := docs } := by
  unfold Deploy
  rw [hload]

theorem mem_zip_map {α β : Type} (f : α → β) (l : List α) (a : α) (b : β)
    (h : (a, b) ∈ l.zip (l.map f)) : b = f a := by
  induction l with
  | nil => simp at h
  | cons x rest ih =>
    simp only [List.map_cons, List.zip_cons_cons, List.mem_cons, Prod.mk.injEq] at h
    rcases h with ⟨h1, h2⟩ | h
    · rw [h1, h2]
    · exact ih h

/-- C8, counterexample: `goodDir` loads two documents, and `Deploy` in apply mode makes no
write call to the orchestrator, so the sequence of write calls is not the loaded sequence. -/
theorem deploy_apply_writes_nothing :
    readManifests goodDir = ([serviceDoc, configDoc], none) ∧
    applyRequest.DryRun = false ∧
    gatewayWrites (Deploy goodDir applyRequest).effects = [] ∧
    gatewayWrites (Deploy goodDir applyRequest).effects ≠ (readManifests goodDir).1 := by
  have hload : readManifests goodDir = ([serviceDoc, configDoc], none) := by decide
  have hw : gatewayWrites (Deploy goodDir applyRequest).effects = [] := by
    rw [Deploy_apply goodDir applyRequest _ hload rfl]
    exact gatewayWrites_applyingLines _ _
  refine ⟨hload, rfl, hw, ?_⟩
  rw [hw, hload]
  decide

/-- C8, amended: for every manifest directory that loads successfully, `Deploy` in apply
mode goes through the loaded documents exactly once, sequentially and in load order,
printing one "Applying kind/name..." line per document and then the success line, and
returns no error; it makes no write call to the orchestrator. -/
theorem deploy_apply_visits_in_order (dir : List WalkEntry) (deployment : Deployment)
    (loaded : List Unstructured) (hload : readManifests dir = (loaded, none))
    (hmode : deployment.DryRun = false) :
    (Deploy dir deployment).err = none ∧
    (Deploy dir deployment).effects =
      loaded.map (fun doc => Effect.stdout ("Applying " ++ doc.Kind ++ "/" ++ doc.Name ++ "...\n"))
        ++ [.stdout ("Successfully deployed " ++ deployment.Name ++ "\n")] ∧
    gatewayWrites (Deploy dir deployment).effects = [] := by
  rw [Deploy_apply dir deployment loaded hload hmode]
  exact ⟨rfl, rfl, gatewayWrites_applyingLines _ _⟩

/-- Witness of the amended C8: applying `goodDir` prints the two "Applying" lines in load
order, then the success line. -/
theorem deploy_apply_visits_in_order_witness :
    (Deploy goodDir applyRequest).effects =
      [.stdout "Applying Service/web...\n", .stdout "Applying ConfigMap/settings...\n",
       .stdout "Successfully deployed web\n"] ∧
    gatewayWrites (Deploy goodDir applyRequest).effects = [] :=
  have h := deploy_apply_visits_in_order goodDir applyRequest [serviceDoc, configDoc]
    (by decide) rfl
  ⟨h.2.1.trans (by decide), h.2.2⟩

/-- C10, counterexample: in dry-run mode the Service document of `goodDir`, which names no
namespace, still has the empty namespace when `Deploy` returns, not the target `prod`. -/
theorem deploy_dry_run_keeps_empty_namespace :
    readManifests goodDir = ([serviceDoc, configDoc], none) ∧
    serviceDoc.Namespace = "" ∧ dryRunRequest.Namespace = "prod" ∧
    (Deploy goodDir dryRunRequest).err = none ∧
    (Deploy goodDir dryRunRequest).manifests.map Unstructured.GetNamespace =
      ["", "kube-system"] ∧
    (Deploy goodDir dryRunRequest).manifests ≠
      [serviceDoc, configDoc].map (defaultNamespace dryRunRequest.Namespace) := by
  have hload : readManifests goodDir = ([serviceDoc, configDoc], none) := by decide
  refine ⟨hload, rfl, rfl, ?_, ?_, ?_⟩
  · rw [Deploy_dryRun goodDir dryRunRequest _ hload rfl]
  · rw [Deploy_dryRun goodDir dryRunRequest _ hload rfl]
    rfl
  · rw [Deploy_dryRun goodDir dryRunRequest _ hload rfl]
    decide

/-- C10, amended: for every document loaded by `Deploy`, in apply mode the document's
namespace after `Deploy` is the target default namespace if its namespace was empty and its
original namespace otherwise, and in dry-run mode it is its original namespace; in both
modes no other field of the document (kind, name, opaque fields) is changed. -/
theorem deploy_namespace_defaulting (dir : List WalkEntry) (deployment : Deployment)
    (loaded : List Unstructured) (hload : readManifests dir = (loaded, none)) :
    (Deploy dir deployment).manifests.length = loaded.length ∧
    (∀ before after, (before, after) ∈ loaded.zip (Deploy dir deployment).manifests →
      after.Kind = before.Kind ∧ after.Name = before.Name ∧ after.Fields = before.Fields ∧
      (deployment.DryRun = false →
        after.Namespace =
          if before.Namespace = "" then deployment.Namespace else before.Namespace) ∧
      (deployment.DryRun = true → after.Namespace = before.Namespace)) ∧
    (deployment.DryRun = false →
      (Deploy dir deployment).manifests = loaded.map (defaultNamespace deployment.Namespace)) ∧
    (deployment.DryRun = true → (Deploy dir deployment).manifests = loaded) := by
  cases hmode : deployment.DryRun with
  | false =>
    rw [Deploy_apply dir deployment loaded hload hmode]
    refine ⟨List.length_map _ _, ?_, fun _ => rfl, fun h => by simp at h⟩
    intro before after hmem
    have := mem_zip_map _ _ _ _ hmem
    subst this
    exact ⟨rfl, rfl, rfl, fun _ => rfl, fun h => by simp at h⟩
  | true =>
    rw [Deploy_dryRun dir deployment loaded hload hmode]
    refine ⟨rfl, ?_, fun h => by simp at h, fun _ => rfl⟩
    intro before after hmem
    have h := mem_zip_map id loaded before after (by simpa using hmem)
    subst h
    exact ⟨rfl, rfl, rfl, fun h => by simp at h, fun _ => rfl⟩

/-- Witness of the amended C10: applying `goodDir` into `prod` gives the Service document
the namespace `prod` and leaves the ConfigMap document in `kube-system`. -/
theorem deploy_namespace_defaulting_witness :
    (Deploy goodDir applyRequest).manifests =
      [{ Kind := "Service", Name := "web", Namespace := "prod", Fields := [("apiVersion", "v1")] },
       configDoc] ∧
    (Deploy goodDir dryRunRequest).manifests = [serviceDoc, configDoc] :=
  ⟨((deploy_namespace_defaulting goodDir applyRequest [serviceDoc, configDoc]
      (by decide)).2.2.1 rfl).trans (by decide),
   (deploy_namespace_defaulting goodDir dryRunRequest [serviceDoc, configDoc]
      (by decide)).2.2.2 rfl⟩

end Apps

namespace Apps

theorem decodeLoop_spec (path : String) (content : List Decoded) :
    ∀ acc : List Unstructured, ∃ mid,
      (decodeLoop path acc content).1 = acc ++ mid ∧
      (∃ rest, documentsOf content = mid ++ rest) ∧
      ((decodeLoop path acc content).2 = none → mid = documentsOf content) := by
  induction content with
  | nil => intro acc; exact ⟨[], by simp [decodeLoop], ⟨[], rfl⟩, fun _ => rfl⟩
  | cons d rest ih =>
    intro acc
    cases d with
    | document m =>
      obtain ⟨mid, h1, ⟨tail, h2⟩, h3⟩ := ih (acc ++ [m])
      refine ⟨m :: mid, ?_, ⟨tail, ?_⟩, ?_⟩
      · simp [decodeLoop, h1]
      · simp [documentsOf, h2]
      · intro h
        simp only [decodeLoop] at h
        simp [documentsOf, h3 h]
    | nilObject =>
      obtain ⟨mid, h1, ⟨tail, h2⟩, h3⟩ := ih acc
      refine ⟨mid, ?_, ⟨tail, ?_⟩, ?_⟩
      · simp [decodeLoop, h1]
      · simp [documentsOf, h2]
      · intro h
        simp only [decodeLoop] at h
        simp [documentsOf, h3 h]
    | failure err =>
      refine ⟨[], by simp [decodeLoop], ⟨documentsOf rest, by simp [documentsOf]⟩, ?_⟩
      intro h
      simp [decodeLoop] at h

theorem decodeLoop_failure (path err : String) (after : List Decoded) (before : List Decoded)
    (hbefore : ∀ d ∈ before, ∀ e, d ≠ Decoded.failure e) :
    ∀ acc : List Unstructured,
      decodeLoop path acc (before ++ Decoded.failure err :: after) =
        (acc ++ documentsOf before,
          some ("failed to decode YAML in " ++ path ++ ": " ++ err)) := by
  induction before with
  | nil => intro acc; simp [decodeLoop, documentsOf]
  | cons d rest ih =>
    intro acc
    have hrest : ∀ d ∈ rest, ∀ e, d ≠ Decoded.failure e :=
      fun x hx => hbefore x (List.mem_cons_of_mem _ hx)
    cases d with
    | document m => simp [decodeLoop, documentsOf, ih hrest]
    | nilObject => simp [decodeLoop, documentsOf, ih hrest]
    | failure e => exact absurd rfl (hbefore _ (List.mem_cons_self _ _) e)

theorem walkFn_spec (acc : List Unstructured) (entry : WalkEntry) :
    ∃ mid, (walkFn acc entry).1 = acc ++ mid ∧
      (∃ rest, entryDocuments entry = mid ++ rest) ∧
      ((walkFn acc entry).2 = none → mid = entryDocuments entry) := by
  unfold walkFn entryDocuments considered
  cases hw : entry.walkErr with
  | some err => exact ⟨[], by simp, ⟨_, rfl⟩, fun h => by simp at h⟩
  | none =>
    by_cases hext : Ext entry.path ≠ ".yaml" ∧ Ext entry.path ≠ ".yml"
    · have hc : ¬ (Ext entry.path = ".yaml" ∨ Ext entry.path = ".yml") := by
        rintro (h | h)
        · exact hext.1 h
        · exact hext.2 h
      exact ⟨[], by simp [hext], ⟨[], by simp [hc]⟩, fun _ => by simp [hc]⟩
    · have hc : Ext entry.path = ".yaml" ∨ Ext entry.path = ".yml" := by
        by_contra hnot
        push_neg at hnot
        exact hext hnot
      cases hr : entry.readFile with
      | error err =>
        refine ⟨[], ?_, ⟨[], ?_⟩, ?_⟩
        · simp only [if_neg hext]; simp
        · simp [hc]
        · intro h
          simp only [if_neg hext] at h
          simp at h
      | ok content =>
        obtain ⟨mid, h1, h2, h3⟩ := decodeLoop_spec entry.path content acc
        refine ⟨mid, ?_, ?_, ?_⟩
        · simp only [if_neg hext]; exact h1
        · simpa [hc] using h2
        · intro h
          simp only [if_neg hext] at h
          simpa [hc] using h3 h

theorem walk_spec (dir : List WalkEntry) :
    ∀ acc : List Unstructured, ∃ mid,
      (walk acc dir).1 = acc ++ mid ∧
      (∃ rest, allDocuments dir = mid ++ rest) ∧
      ((walk acc dir).2 = none → mid = allDocuments dir) := by
  induction dir with
  | nil => intro acc; exact ⟨[], by simp [walk], ⟨[], rfl⟩, fun _ => rfl⟩
  | cons entry rest ih =>
    intro acc
    obtain ⟨mid1, h1, ⟨tail1, h2⟩, h3⟩ := walkFn_spec acc entry
    rcases hfn : walkFn acc entry with ⟨docs, _ | err⟩
    · rw [hfn] at h1 h3
      simp only at h1 h3
      have hmid := h3 trivial
      subst h1
      obtain ⟨mid2, k1, ⟨tail2, k2⟩, k3⟩ := ih (acc ++ mid1)
      refine ⟨mid1 ++ mid2, ?_, ⟨tail2, ?_⟩, ?_⟩
      · simp [walk, hfn, k1]
      · simp [allDocuments, ← hmid, k2]
      · intro h
        simp only [walk, hfn] at h
        simp [allDocuments, ← hmid, k3 h]
    · rw [hfn] at h1
      simp only at h1
      refine ⟨mid1, ?_, ⟨tail1 ++ allDocuments rest, ?_⟩, ?_⟩
      · simp [walk, hfn, h1]
      · simp [allDocuments, h2]
      · intro h
        simp [walk, hfn] at h

theorem walk_append (pre rest : List WalkEntry) :
    ∀ acc loaded : List Unstructured, walk acc pre = (loaded, none) →
      walk acc (pre ++ rest) = walk loaded rest := by
  induction pre with
  | nil =>
    intro acc loaded h
    simp only [walk, Prod.mk.injEq, and_true] at h
    simp [h]
  | cons entry tail ih =>
    intro acc loaded h
    rcases hfn : walkFn acc entry with ⟨docs, _ | err⟩
    · simp only [walk, hfn] at h
      simp only [List.cons_append, walk, hfn]
      exact ih docs loaded h
    · simp [walk, hfn] at h

/-- C9, counterexample: the YAML file of `brokenDir` holds a good document followed by one
that fails to decode; `readManifests` returns the error together with the document decoded
before the failure, not with an empty list. -/
theorem readManifests_returns_partial_list :
    readManifests brokenDir =
      ([serviceDoc], some ("failed to decode YAML in manifests/app.yaml: " ++
        "yaml: line 9: mapping values are not allowed")) ∧
    (readManifests brokenDir).1 ≠ [] := by
  have h : readManifests brokenDir =
      ([serviceDoc], some ("failed to decode YAML in manifests/app.yaml: " ++
        "yaml: line 9: mapping values are not allowed")) := by decide
  refine ⟨h, ?_⟩
  rw [h]
  decide

theorem decodeLoop_error_inv (path : String) (content : List Decoded) :
    ∀ (acc docs : List Unstructured) (err : String),
      decodeLoop path acc content = (docs, some err) →
      ∃ before e after, content = before ++ Decoded.failure e :: after ∧
        (∀ d ∈ before, ∀ e', d ≠ Decoded.failure e') ∧
        docs = acc ++ documentsOf before ∧
        err = "failed to decode YAML in " ++ path ++ ": " ++ e := by
  induction content with
  | nil => intro acc docs err h; simp [decodeLoop] at h
  | cons d rest ih =>
    intro acc docs err h
    cases d with
    | document m =>
      simp only [decodeLoop] at h
      obtain ⟨before, e, after, h1, h2, h3, h4⟩ := ih _ _ _ h
      refine ⟨Decoded.document m :: before, e, after, by simp [h1], ?_, ?_, h4⟩
      · intro x hx e'
        rcases List.mem_cons.mp hx with hx | hx
        · rw [hx]; exact fun hne => by cases hne
        · exact h2 x hx e'
      · simp [documentsOf, h3]
    | nilObject =>
      simp only [decodeLoop] at h
      obtain ⟨before, e, after, h1, h2, h3, h4⟩ := ih _ _ _ h
      refine ⟨Decoded.nilObject :: before, e, after, by simp [h1], ?_, ?_, h4⟩
      · intro x hx e'
        rcases List.mem_cons.mp hx with hx | hx
        · rw [hx]; exact fun hne => by cases hne
        · exact h2 x hx e'
      · simp [documentsOf, h3]
    | failure e =>
      simp only [decodeLoop, Prod.mk.injEq, Option.some.injEq] at h
      exact ⟨[], e, rest, rfl, fun x hx => by simp at hx, by simp [documentsOf, h.1], h.2.symm⟩

theorem walk_error_inv (dir : List WalkEntry) :
    ∀ (acc docs : List Unstructured) (err : String), walk acc dir = (docs, some err) →
      ∃ pre entry post loaded, dir = pre ++ entry :: post ∧ walk acc pre = (loaded, none) ∧
        walkFn loaded entry = (docs, some err) := by
  induction dir with
  | nil => intro acc docs err h; simp [walk] at h
  | cons entry rest ih =>
    intro acc docs err h
    rcases hfn : walkFn acc entry with ⟨docs1, _ | err1⟩
    · simp only [walk, hfn] at h
      obtain ⟨pre, e, post, loaded, h1, h2, h3⟩ := ih _ _ _ h
      refine ⟨entry :: pre, e, post, loaded, by simp [h1], ?_, h3⟩
      simp only [walk, hfn]
      exact h2
    · simp only [walk, hfn, Prod.mk.injEq, Option.some.injEq] at h
      refine ⟨[], entry, rest, acc, rfl, rfl, ?_⟩
      rw [hfn, h.1, h.2]

theorem walk_ok_allDocuments (pre : List WalkEntry) (loaded : List Unstructured)
    (h : walk [] pre = (loaded, none)) : loaded = allDocuments pre := by
  obtain ⟨mid, h1, -, h3⟩ := walk_spec pre []
  rw [h] at h1 h3
  simp only [List.nil_append] at h1
  rw [h1]
  exact h3 rfl

theorem walkFn_walkErr (loaded : List Unstructured) (entry : WalkEntry) (e : String)
    (hwalk : entry.walkErr = some e) : walkFn loaded entry = (loaded, some e) := by
  unfold walkFn
  rw [hwalk]

theorem walkFn_readError (loaded : List Unstructured) (entry : WalkEntry) (e : String)
    (hwalk : entry.walkErr = none)
    (hext : Ext entry.path = ".yaml" ∨ Ext entry.path = ".yml")
    (hread : entry.readFile = .error e) :
    walkFn loaded entry =
      (loaded, some ("failed to read file " ++ entry.path ++ ": " ++ e)) := by
  have hnot : ¬ (Ext entry.path ≠ ".yaml" ∧ Ext entry.path ≠ ".yml") := by
    rintro ⟨ha, hb⟩
    rcases hext with h | h
    · exact ha h
    · exact hb h
  unfold walkFn
  rw [hwalk]
  simp only [if_neg hnot, hread]

theorem walkFn_decodeFailure (loaded : List Unstructured) (entry : WalkEntry)
    (before after : List Decoded) (e : String)
    (hwalk : entry.walkErr = none)
    (hext : Ext entry.path = ".yaml" ∨ Ext entry.path = ".yml")
    (hread : entry.readFile = .ok (before ++ Decoded.failure e :: after))
    (hbefore : ∀ d ∈ before, ∀ e', d ≠ Decoded.failure e') :
    walkFn loaded entry =
      (loaded ++ documentsOf before,
        some ("failed to decode YAML in " ++ entry.path ++ ": " ++ e)) := by
  have hnot : ¬ (Ext entry.path ≠ ".yaml" ∧ Ext entry.path ≠ ".yml") := by
    rintro ⟨ha, hb⟩
    rcases hext with h | h
    · exact ha h
    · exact hb h
  unfold walkFn
  rw [hwalk]
  simp only [if_neg hnot, hread]
  exact decodeLoop_failure entry.path e after before hbefore loaded

theorem walkFn_error_inv (loaded docs : List Unstructured) (entry : WalkEntry) (err : String)
    (h : walkFn loaded entry = (docs, some err)) :
    (entry.walkErr = some err ∧ docs = loaded) ∨
    (entry.walkErr = none ∧ (Ext entry.path = ".yaml" ∨ Ext entry.path = ".yml") ∧
      ∃ e, entry.readFile = .error e ∧ docs = loaded ∧
        err = "failed to read file " ++ entry.path ++ ": " ++ e) ∨
    (entry.walkErr = none ∧ (Ext entry.path = ".yaml" ∨ Ext entry.path = ".yml") ∧
      ∃ before e after, entry.readFile = .ok (before ++ Decoded.failure e :: after) ∧
        (∀ d ∈ before, ∀ e', d ≠ Decoded.failure e') ∧
        docs = loaded ++ documentsOf before ∧
        err = "failed to decode YAML in " ++ entry.path ++ ": " ++ e) := by
  unfold walkFn at h
  cases hw : entry.walkErr with
  | some e =>
    rw [hw] at h
    simp only [Prod.mk.injEq, Option.some.injEq] at h
    exact Or.inl ⟨by rw [h.2], h.1.symm⟩
  | none =>
    rw [hw] at h
    by_cases hext : Ext entry.path ≠ ".yaml" ∧ Ext entry.path ≠ ".yml"
    · simp [hext] at h
    · have hc : Ext entry.path = ".yaml" ∨ Ext entry.path = ".yml" := by
        by_contra hnot
        push_neg at hnot
        exact hext hnot
      simp only [if_neg hext] at h
      cases hr : entry.readFile with
      | error e =>
        rw [hr] at h
        simp only [Prod.mk.injEq, Option.some.injEq] at h
        exact Or.inr (Or.inl ⟨rfl, hc, e, rfl, h.1.symm, h.2.symm⟩)
      | ok content =>
        rw [hr] at h
        obtain ⟨before, e, after, h1, h2, h3, h4⟩ := decodeLoop_error_inv _ _ _ _ _ h
        exact Or.inr (Or.inr ⟨rfl, hc, before, e, after, by rw [h1], h2, h3, h4⟩)

/-- C9, amended: for every directory, `readManifests` returns either the complete document
list with no error, or an error together with the documents decoded before the failure (an
initial part of the complete list). The load aborts at the first entry that fails: a walk
error or an unreadable considered file returns the documents of all earlier entries with the
error; a document of a considered file that fails to decode returns the documents of all
earlier entries followed by those decoded earlier in that file, with an error naming the
file. Every error return is of one of these three forms. The caller `Deploy` does nothing
with the documents returned with an error: it prints nothing and returns the error. -/
theorem readManifests_complete_or_error (dir : List WalkEntry) :
    (∀ docs, readManifests dir = (docs, none) → docs = allDocuments dir) ∧
    (∀ docs err, readManifests dir = (docs, some err) →
      (∃ rest, allDocuments dir = docs ++ rest) ∧
      ∀ deployment, (Deploy dir deployment).err = some ("failed to read manifests: " ++ err) ∧
        (Deploy dir deployment).effects = []) ∧
    (∀ pre entry post loaded, dir = pre ++ entry :: post →
      readManifests pre = (loaded, none) →
      loaded = allDocuments pre ∧
      (∀ e, entry.walkErr = some e → readManifests dir = (loaded, some e)) ∧
      (∀ e, entry.walkErr = none → (Ext entry.path = ".yaml" ∨ Ext entry.path = ".yml") →
        entry.readFile = .error e →
        readManifests dir =
          (loaded, some ("failed to read file " ++ entry.path ++ ": " ++ e))) ∧
      (∀ before e after, entry.walkErr = none →
        (Ext entry.path = ".yaml" ∨ Ext entry.path = ".yml") →
        entry.readFile = .ok (before ++ Decoded.failure e :: after) →
        (∀ d ∈ before, ∀ e', d ≠ Decoded.failure e') →
        readManifests dir = (loaded ++ documentsOf before,
          some ("failed to decode YAML in " ++ entry.path ++ ": " ++ e)))) ∧
    (∀ docs err, readManifests dir = (docs, some err) →
      ∃ pre entry post, dir = pre ++ entry :: post ∧
        readManifests pre = (allDocuments pre, none) ∧
        ((entry.walkErr = some err ∧ docs = allDocuments pre) ∨
         (entry.walkErr = none ∧ (Ext entry.path = ".yaml" ∨ Ext entry.path = ".yml") ∧
           ∃ e, entry.readFile = .error e ∧ docs = allDocuments pre ∧
             err = "failed to read file " ++ entry.path ++ ": " ++ e) ∨
         (entry.walkErr = none ∧ (Ext entry.path = ".yaml" ∨ Ext entry.path = ".yml") ∧
           ∃ before e after, entry.readFile = .ok (before ++ Decoded.failure e :: after) ∧
             (∀ d ∈ before, ∀ e', d ≠ Decoded.failure e') ∧
             docs = allDocuments pre ++ documentsOf before ∧
             err = "failed to decode YAML in " ++ entry.path ++ ": " ++ e))) := by
  obtain ⟨mid, h1, ⟨tail, h2⟩, h3⟩ := walk_spec dir []
  refine ⟨?_, ?_, ?_, ?_⟩
  · intro docs h
    exact walk_ok_allDocuments dir docs h
  · intro docs err h
    refine ⟨⟨tail, ?_⟩, fun deployment => ?_⟩
    · have h' := h
      unfold readManifests at h'
      rw [h'] at h1
      simp only [List.nil_append] at h1
      rw [h1]
      exact h2
    · rw [Deploy_error dir deployment docs err h]
      exact ⟨rfl, rfl⟩
  · intro pre entry post loaded hdir hpre
    subst hdir
    have hstep : ∀ (docs : List Unstructured) (err : String),
        walkFn loaded entry = (docs, some err) →
        readManifests (pre ++ entry :: post) = (docs, some err) := by
      intro docs err hfn
      unfold readManifests at hpre ⊢
      rw [walk_append pre (entry :: post) [] loaded hpre]
      simp only [walk, hfn]
    refine ⟨walk_ok_allDocuments pre loaded hpre, ?_, ?_, ?_⟩
    · intro e hwalk
      exact hstep _ _ (walkFn_walkErr loaded entry e hwalk)
    · intro e hwalk hext hread
      exact hstep _ _ (walkFn_readError loaded entry e hwalk hext hread)
    · intro before e after hwalk hext hread hbefore
      exact hstep _ _
        (walkFn_decodeFailure loaded entry before after e hwalk hext hread hbefore)
  · intro docs err h
    obtain ⟨pre, entry, post, loaded, hdir, hpre, hfn⟩ := walk_error_inv dir [] docs err h
    have hloaded := walk_ok_allDocuments pre loaded hpre
    subst hloaded
    exact ⟨pre, entry, post, hdir, hpre, walkFn_error_inv _ _ _ _ hfn⟩

/-- Witness of the amended C9: on `brokenDir` the load stops at the second document of
`manifests/app.yaml` with an error naming that file and returns the document decoded before
it; on `unreadableDir` and on `unlistableDir` it returns the document of the earlier file
with the error; `Deploy` prints nothing. -/
theorem readManifests_complete_or_error_witness :
    readManifests brokenDir =
      ([] ++ documentsOf [.document serviceDoc],
        some ("failed to decode YAML in " ++ "manifests/app.yaml" ++ ": " ++
          "yaml: line 9: mapping values are not allowed")) ∧
    readManifests unreadableDir =
      ([serviceDoc], some ("failed to read file " ++ "manifests/secrets.yml" ++ ": " ++
        "open manifests/secrets.yml: permission denied")) ∧
    readManifests unlistableDir =
      ([configDoc], some "open manifests/private: permission denied") ∧
    (Deploy brokenDir applyRequest).effects = [] ∧
    (∀ docs, readManifests goodDir = (docs, none) → docs = allDocuments goodDir) :=
  ⟨((readManifests_complete_or_error brokenDir).2.2.1
      [{ path := "manifests", walkErr := none, readFile := .error "is a directory" }]
      { path := "manifests/app.yaml", walkErr := none,
        readFile := .ok [.document serviceDoc,
          .failure "yaml: line 9: mapping values are not allowed"] }
      [] [] rfl (by decide)).2.2.2
      [.document serviceDoc] "yaml: line 9: mapping values are not allowed" []
      rfl (by decide) rfl (by simp),
   ((readManifests_complete_or_error unreadableDir).2.2.1
      [{ path := "manifests/app.yaml", walkErr := none,
         readFile := .ok [.document serviceDoc] }]
      { path := "manifests/secrets.yml", walkErr := none,
        readFile := .error "open manifests/secrets.yml: permission denied" }
      [] [serviceDoc] rfl (by decide)).2.2.1
      "open manifests/secrets.yml: permission denied" rfl (by decide) rfl,
   ((readManifests_complete_or_error unlistableDir).2.2.1
      [{ path := "manifests/app.yaml", walkErr := none,
         readFile := .ok [.document configDoc] }]
      { path := "manifests/private",
        walkErr := some "open manifests/private: permission denied",
        readFile := .error "is a directory" }
      [] [configDoc] rfl (by decide)).2.1
      "open manifests/private: permission denied" rfl,
   (((readManifests_complete_or_error brokenDir).2.1 [serviceDoc]
      ("failed to decode YAML in manifests/app.yaml: " ++
        "yaml: line 9: mapping values are not allowed") (by decide)).2
      applyRequest).2,
   (readManifests_complete_or_error goodDir).1⟩

end Apps
